import Mathlib

open List

/-!
Verification development for the antbot repository.

We give a shallow embedding of the Python sources and prove properties of the
embedded definitions:

* `TxPipeline`       — `src/python/transaction_pipeline.py`
* `APIClientM`       — `src/backend/python/api_client.py`
* `BackendPipeline`  — `src/backend/python/transaction_pipeline.py`
* `BackendMonitor`   — `src/backend/python/liquidity_monitor.py`
* `PoolMonitor`      — `src/python/liquidity_monitor.py`

Modelling conventions:
* Python `float` values are modelled as rationals (`ℚ`); the code only ever
  compares and adds/divides such values, so no rounding behaviour is relevant.
* `datetime` values are modelled as rational "seconds" on one time axis;
  `(a - b).total_seconds()` becomes rational subtraction.
* Python `dict`s are modelled as insertion-ordered association lists with
  unique keys: assignment to an existing key replaces the value in place,
  assignment to a fresh key appends, `del` removes the entry, and iteration
  order is list order (this is exactly CPython's documented dict behaviour).
* `list.sort(key=..., reverse=True)` is a stable descending sort; a stable
  sort's output is uniquely determined by the comparator and the input, so it
  is modelled by `List.insertionSort` with the corresponding total preorder.
* Exceptions are modelled with `Except`/`Option` results.
-/

namespace TxPipeline

/-- Embeds the `TransactionRequest` dataclass of
`src/python/transaction_pipeline.py` (lines 23-34). -/
structure TransactionRequest where
  token_address : String
  amount : ℚ
  action : String
  priority : Int
  max_slippage : ℚ
  created_at : ℚ
  wallet_address : String
  signature : Option String := none
  status : String := "pending"
  error : Option String := none
deriving DecidableEq

/-- Embeds the `TransactionResult` dataclass (lines 36-43). -/
structure TransactionResult where
  request : TransactionRequest
  success : Bool
  transaction_hash : Option String
  execution_time : ℚ
  error : Option String
  timestamp : ℚ
deriving DecidableEq

/-- The mutable pipeline state: `pending_transactions`,
`processing_transactions` (a dict keyed by the request's `signature` field,
which is `Option String`), `completed_transactions`, and the set of loaded
wallet names (lines 54-60). -/
structure PipelineState where
  pending_transactions : List TransactionRequest
  processing_transactions : List (Option String × TransactionRequest)
  completed_transactions : List TransactionResult
  wallets : List String
deriving DecidableEq

/-- The sort key of `_process_transactions` line 100:
`sort(key=lambda x: x.priority, reverse=True)` puts `a` before `b` when
`a.priority ≥ b.priority`. -/
def priorityGE (a b : TransactionRequest) : Prop :=
  b.priority ≤ a.priority

instance : DecidableRel priorityGE := fun a b => Int.decLe b.priority a.priority

instance : IsTotal TransactionRequest priorityGE :=
  ⟨fun a b => le_total b.priority a.priority⟩

instance : IsTrans TransactionRequest priorityGE :=
  ⟨fun _ _ _ h1 h2 => le_trans h2 h1⟩

/-- The stable descending sort of line 100.  Any two stable sorts agree, so
Python's Timsort is modelled by insertion sort over `priorityGE`. -/
def sortPending (l : List TransactionRequest) : List TransactionRequest :=
  l.insertionSort priorityGE

/-- CPython dict assignment `m[k] = v`: replace in place when the key exists,
append otherwise. -/
def dictInsert (m : List (Option String × TransactionRequest))
    (k : Option String) (v : TransactionRequest) :
    List (Option String × TransactionRequest) :=
  if m.any (fun p => decide (p.1 = k)) then
    m.map (fun p => if p.1 = k then (k, v) else p)
  else
    m ++ [(k, v)]

/-- CPython `if k in m: del m[k]` (lines 162-163): remove the entry with
key `k` when present. -/
def dictRemove (m : List (Option String × TransactionRequest))
    (k : Option String) : List (Option String × TransactionRequest) :=
  m.filter (fun p => decide (p.1 ≠ k))

/-- The dispatch `while` loop of `_process_transactions` (lines 104-109):
while the processing dict holds fewer than `max_concurrent` entries and
pending requests remain, pop the head of the (sorted) pending list, store it
in `processing_transactions` under its `signature` field, and spawn its
execution task.  Returns (remaining pending, new processing dict, the list of
requests handed to execution tasks, in dispatch order). -/
def dispatchLoop (maxConcurrent : Nat) :
    List TransactionRequest → List (Option String × TransactionRequest) →
    List TransactionRequest × List (Option String × TransactionRequest) ×
      List TransactionRequest
  | [], proc => ([], proc, [])
  | t :: rest, proc =>
    if proc.length < maxConcurrent then
      let r := dispatchLoop maxConcurrent rest (dictInsert proc t.signature t)
      (r.1, r.2.1, t :: r.2.2)
    else
      (t :: rest, proc, [])

/-- One call of `_process_transactions` (lines 97-109): sort the pending list
by priority (descending, stable), then run the dispatch loop.  (The trailing
`_cleanup_old_transactions` call only touches `completed_transactions` and is
modelled separately.) -/
def process_transactions (maxConcurrent : Nat)
    (pending : List TransactionRequest)
    (processing : List (Option String × TransactionRequest)) :
    List TransactionRequest × List (Option String × TransactionRequest) ×
      List TransactionRequest :=
  dispatchLoop maxConcurrent (sortPending pending) processing

/-- The order in which requests leave the pending queue over `fuel` rounds of
`_process_transactions`, starting from an empty processing dict each round.
Between rounds every dispatched task finishes: on the repository as shipped
every execution fails (`_build_transaction` raises `NotImplementedError`), and
on the failure path `_execute_transaction`'s `finally` block deletes the
request's (unchanged) signature key, emptying the processing dict. -/
def drainOrder (maxConcurrent : Nat) :
    Nat → List TransactionRequest → List TransactionRequest
  | 0, _ => []
  | fuel + 1, pending =>
    match pending with
    | [] => []
    | p :: ps =>
      let r := process_transactions maxConcurrent (p :: ps) []
      r.2.2 ++ drainOrder maxConcurrent fuel r.1

/-- `submit_transaction` (lines 199-209): raise `ValueError` when the wallet
is unknown, otherwise append the request to the pending queue — with no
duplicate check of any kind — and return the request's `signature` field. -/
def submit_transaction (st : PipelineState) (request : TransactionRequest) :
    Except String (Option String × PipelineState) :=
  if request.wallet_address ∈ st.wallets then
    Except.ok (request.signature,
      { st with pending_transactions := st.pending_transactions ++ [request] })
  else
    Except.error ("Invalid wallet address: " ++ request.wallet_address)

/-- `_execute_transaction` (lines 114-163).  The build/sign/send sequence is
summarised by `outcome`: `Except.ok h` when `_send_transaction` returned the
transaction hash `h`, `Except.error e` when any of the three steps raised `e`
(the `except` clause catches every exception).  On success the request's
`signature` is overwritten with the hash *before* the `finally` block runs, so
the `finally` deletion uses the mutated signature.  `startTime`/`now` model
the two `datetime.now()` readings. -/
def execute_transaction (tx : TransactionRequest)
    (outcome : Except String String) (startTime now : ℚ)
    (st : PipelineState) : PipelineState :=
  match outcome with
  | Except.ok h =>
      let tx' : TransactionRequest := { tx with status := "completed", signature := some h }
      let res : TransactionResult :=
        { request := tx', success := true, transaction_hash := some h,
          execution_time := now - startTime, error := none, timestamp := now }
      { st with
          completed_transactions := st.completed_transactions ++ [res],
          processing_transactions := dictRemove st.processing_transactions tx'.signature }
  | Except.error e =>
      let tx' : TransactionRequest := { tx with status := "failed", error := some e }
      let res : TransactionResult :=
        { request := tx', success := false, transaction_hash := none,
          execution_time := now - startTime, error := some e, timestamp := now }
      { st with
          completed_transactions := st.completed_transactions ++ [res],
          processing_transactions := dictRemove st.processing_transactions tx'.signature }

/-- A pipeline state with an empty queue and one loaded wallet `"main"`. -/
def emptyPipeline : PipelineState :=
  { pending_transactions := [], processing_transactions := [],
    completed_transactions := [], wallets := ["main"] }

/-- A freshly created, unsigned request (all optional fields at their
dataclass defaults) on wallet `tok`. -/
def freshRequest (tok wallet : String) (prio : Int) : TransactionRequest :=
  { token_address := tok, amount := 3, action := "sell", priority := prio,
    max_slippage := 2, created_at := 5, wallet_address := wallet }

/-- A request that already carries the signature `"sigA"`. -/
def dupRequest : TransactionRequest :=
  { token_address := "tok", amount := 2, action := "buy", priority := 1,
    max_slippage := 1, created_at := 0, wallet_address := "main",
    signature := some "sigA" }

/-- A pipeline state whose queue already contains `dupRequest`. -/
def dupState : PipelineState :=
  { pending_transactions := [dupRequest], processing_transactions := [],
    completed_transactions := [], wallets := ["main"] }

end TxPipeline

namespace APIClientM

/-- Embeds the `APIResponse` dataclass of `src/backend/python/api_client.py`
(lines 11-15); the JSON body is left abstract as a `String`. -/
structure APIResponse where
  data : String
  status : Int
  timestamp : ℚ
deriving DecidableEq

/-- The retry loop of `APIClient.get` (lines 57-74) in the regime where
*every* underlying HTTP call fails.  `for attempt in range(max_retries)`
iterates over the attempt indices; attempt `a` fails with message `errs a`;
when `attempt < max_retries - 1` the loop sleeps for the configured
`retry_delay` — a constant, multiplied by nothing — and continues, otherwise
the last exception is re-raised.  Returns (number of attempts made, the
delays slept between consecutive attempts, the propagated error if any).
Falling off the end of the `for` loop (possible only when `max_retries = 0`)
returns Python's implicit `None`, modelled as no propagated error. -/
def attemptLoop (max_retries : Nat) (retry_delay : ℚ) (errs : Nat → String) :
    List Nat → Nat × List ℚ × Option String
  | [] => (0, [], none)
  | a :: rest =>
    if a < max_retries - 1 then
      let r := attemptLoop max_retries retry_delay errs rest
      (r.1 + 1, retry_delay :: r.2.1, r.2.2)
    else
      (1, [], some (errs a))

/-- `APIClient.get` when every call fails: run the retry loop over
`range(max_retries)`. -/
def get_all_fail (max_retries : Nat) (retry_delay : ℚ) (errs : Nat → String) :
    Nat × List ℚ × Option String :=
  attemptLoop max_retries retry_delay errs (List.range max_retries)

end APIClientM

namespace BackendPipeline

/-- Embeds the `Transaction` dataclass of
`src/backend/python/transaction_pipeline.py` (lines 17-29); the free-form
`metadata` dict is modelled as string pairs. -/
structure Transaction where
  hash : String
  from_address : String
  to_address : String
  value : ℚ
  token_address : String
  timestamp : ℚ
  gas_price : ℚ
  gas_used : Int
  status : String
  metadata : List (String × String)
deriving DecidableEq

/-- CPython dict assignment `self.transaction_cache[transaction.hash] = transaction`
(line 225): replace in place when the key exists, append otherwise. -/
def cacheSet (m : List (String × Transaction)) (k : String) (v : Transaction) :
    List (String × Transaction) :=
  if m.any (fun p => decide (p.1 = k)) then
    m.map (fun p => if p.1 = k then (k, v) else p)
  else
    m ++ [(k, v)]

/-- `min(self.transaction_cache.items(), key=lambda x: x[1].timestamp)`
(lines 219-222).  Python's `min` returns the *first* minimal item in
iteration (= insertion) order. -/
def minByTimestamp : List (String × Transaction) → Option (String × Transaction)
  | [] => none
  | p :: rest =>
    match minByTimestamp rest with
    | none => some p
    | some q => if q.2.timestamp < p.2.timestamp then some q else some p

/-- `_add_to_cache` (lines 215-225): when the cache already holds
`max_cache_size` entries, delete the entry with the oldest timestamp, then
store the transaction under its hash.  (With `max_cache_size = 0` Python's
`min` over an empty dict would raise; that `none` branch is unreachable for
the positive capacities the theorems assume.) -/
def add_to_cache (max_cache_size : Nat) (cache : List (String × Transaction))
    (transaction : Transaction) : List (String × Transaction) :=
  let cache' :=
    if max_cache_size ≤ cache.length then
      match minByTimestamp cache with
      | some oldest => cache.filter (fun p => decide (p.1 ≠ oldest.1))
      | none => cache
    else cache
  cacheSet cache' transaction.hash transaction

/-- `_is_cache_valid` (lines 227-230):
`(datetime.utcnow() - transaction.timestamp).total_seconds() <= self.cache_ttl`. -/
def is_cache_valid (cache_ttl now : ℚ) (transaction : Transaction) : Bool :=
  decide (now - transaction.timestamp ≤ cache_ttl)

/-- The base58 alphabet of `_validate_transaction_hash` (line 328). -/
def base58Chars : List Char :=
  "123456789ABCDEFGHJKLMNPQRSTUVWXYZabcdefghijkmnopqrstuvwxyz".toList

/-- `_validate_transaction_hash` (lines 320-336): exactly 88 characters (an
empty string fails the length test), all from the base58 alphabet. -/
def validate_transaction_hash (h : String) : Bool :=
  decide (h.length = 88) && h.toList.all (fun c => base58Chars.contains c)

/-- CPython `transaction_cache[hash]` read guarded by `hash in transaction_cache`. -/
def cacheGet (m : List (String × Transaction)) (k : String) : Option Transaction :=
  (m.find? (fun p => decide (p.1 = k))).map Prod.snd

/-- `get_transaction` (lines 145-172): raise (a `BotError`-wrapped
`ValidationError`) on a malformed hash; otherwise return the cached
transaction when it is present and TTL-valid, and `None` both for unknown
keys and for entries whose TTL has elapsed.  The cache is passed through
unchanged on every non-raising path — the read never mutates it. -/
def get_transaction (cache_ttl : ℚ) (cache : List (String × Transaction))
    (transaction_hash : String) (now : ℚ) :
    Except String (Option Transaction × List (String × Transaction)) :=
  if validate_transaction_hash transaction_hash then
    match cacheGet cache transaction_hash with
    | some transaction =>
      if is_cache_valid cache_ttl now transaction then
        Except.ok (some transaction, cache)
      else
        Except.ok (none, cache)
    | none => Except.ok (none, cache)
  else
    Except.error "Invalid transaction hash"

/-- A transaction with the given hash and timestamp and neutral remaining
fields, used for concrete instances. -/
def mkTx (h : String) (ts : ℚ) : Transaction :=
  { hash := h, from_address := "F", to_address := "T", value := 1,
    token_address := "M", timestamp := ts, gas_price := 1, gas_used := 1,
    status := "pending", metadata := [] }

/-- A well-formed 88-character base58 transaction hash. -/
def hash88 : String := String.mk (List.replicate 88 '1')

end BackendPipeline

namespace BackendMonitor

/-- The per-token monitoring record of
`src/backend/python/liquidity_monitor.py` (lines 118-123): alert threshold,
last-seen liquidity, time of the last alert (initialised to `datetime.min`,
i.e. any sufficiently early instant), and the pruned liquidity history. -/
structure TokenData where
  threshold : ℚ
  last_liquidity : ℚ
  last_alert_time : ℚ
  liquidity_history : List (ℚ × ℚ)
deriving DecidableEq

/-- Embeds the `LiquidityAlert` dataclass (lines 25-32); the free-form
`details` dict is modelled as labelled rationals. -/
structure LiquidityAlert where
  token_address : String
  current_liquidity : ℚ
  threshold : ℚ
  alert_type : String
  timestamp : ℚ
  details : List (String × ℚ)
deriving DecidableEq

/-- `_check_alerts` (lines 231-275): return without any alert when the
cooldown has not elapsed (`now - last_alert_time < alert_cooldown`);
otherwise fire at most one alert — the low-liquidity check first, else a
relative change of magnitude at least `liquidity_decrease_threshold`
(decrease or increase by the sign of the ratio) — and refresh
`last_alert_time` to `now` exactly when an alert fires. -/
def check_alerts (alert_cooldown liquidity_decrease_threshold : ℚ)
    (token_address : String) (now current_liquidity : ℚ) (d : TokenData) :
    Option LiquidityAlert × TokenData :=
  if now - d.last_alert_time < alert_cooldown then
    (none, d)
  else if current_liquidity < d.threshold then
    (some { token_address := token_address,
            current_liquidity := current_liquidity,
            threshold := d.threshold, alert_type := "low_liquidity",
            timestamp := now, details := [("threshold", d.threshold)] },
     { d with last_alert_time := now })
  else if 0 < d.last_liquidity then
    let change_ratio :=
      (current_liquidity - d.last_liquidity) / d.last_liquidity
    if liquidity_decrease_threshold ≤ |change_ratio| then
      (some { token_address := token_address,
              current_liquidity := current_liquidity,
              threshold := d.last_liquidity,
              alert_type := if change_ratio < 0 then "liquidity_decrease"
                            else "liquidity_increase",
              timestamp := now,
              details := [("change_ratio", change_ratio),
                          ("previous_liquidity", d.last_liquidity)] },
       { d with last_alert_time := now })
    else (none, d)
  else (none, d)

/-- The timestamps at which alerts fire over a sequence of `_check_alerts`
calls for one token; each input is (observation time, current liquidity). -/
def run_checks (alert_cooldown liquidity_decrease_threshold : ℚ)
    (token_address : String) :
    List (ℚ × ℚ) → TokenData → List ℚ
  | [], _ => []
  | (now, liq) :: rest, d =>
    let r := check_alerts alert_cooldown liquidity_decrease_threshold
      token_address now liq d
    match r.1 with
    | some _ => now :: run_checks alert_cooldown liquidity_decrease_threshold
        token_address rest r.2
    | none => run_checks alert_cooldown liquidity_decrease_threshold
        token_address rest r.2

end BackendMonitor

namespace PoolMonitor

/-- Embeds the `PoolMetrics` dataclass of
`src/python/liquidity_monitor.py` (lines 19-29). -/
structure PoolMetrics where
  pool_address : String
  token_address : String
  liquidity : ℚ
  volume_24h : ℚ
  price : ℚ
  price_change_24h : ℚ
  liquidity_change_24h : ℚ
  volume_change_24h : ℚ
  last_updated : ℚ
deriving DecidableEq

/-- Embeds the `LiquidityAlert` dataclass (lines 31-40).  The numeric
interpolations of the Python f-string messages are abstracted away; the
constant text is kept. -/
structure LiquidityAlert where
  pool_address : String
  token_address : String
  alert_type : String
  severity : String
  current_value : ℚ
  threshold_value : ℚ
  timestamp : ℚ
  message : String
deriving DecidableEq

/-- The alerts appended to `alert_history` by one `_analyze_pool_metrics`
call (lines 132-171).  The three threshold checks are *independent* `if`
statements — each satisfied condition appends its own alert, in source
order: low liquidity, then drop, then surge. -/
def analyze_alerts (min_liquidity liquidity_drop_threshold
    liquidity_surge_threshold now : ℚ) (m : PoolMetrics) :
    List LiquidityAlert :=
  (if m.liquidity < min_liquidity then
    [{ pool_address := m.pool_address, token_address := m.token_address,
       alert_type := "low_liquidity", severity := "high",
       current_value := m.liquidity, threshold_value := min_liquidity,
       timestamp := now,
       message := "Pool liquidity below minimum threshold" }]
   else []) ++
  (if m.liquidity_change_24h < -liquidity_drop_threshold then
    [{ pool_address := m.pool_address, token_address := m.token_address,
       alert_type := "liquidity_drop", severity := "medium",
       current_value := m.liquidity_change_24h,
       threshold_value := -liquidity_drop_threshold, timestamp := now,
       message := "Significant liquidity drop detected" }]
   else []) ++
  (if liquidity_surge_threshold < m.liquidity_change_24h then
    [{ pool_address := m.pool_address, token_address := m.token_address,
       alert_type := "liquidity_surge", severity := "low",
       current_value := m.liquidity_change_24h,
       threshold_value := liquidity_surge_threshold, timestamp := now,
       message := "Significant liquidity surge detected" }]
   else [])

/-- The monitor state touched by `_analyze_pool_metrics`: the alert history
and the `monitored_pools` dict. -/
structure MonitorState where
  monitored_pools : List (String × PoolMetrics)
  alert_history : List LiquidityAlert
deriving DecidableEq

/-- CPython dict assignment `self.monitored_pools[pool_address] = metrics`
(line 171). -/
def poolsSet (m : List (String × PoolMetrics)) (k : String)
    (v : PoolMetrics) : List (String × PoolMetrics) :=
  if m.any (fun p => decide (p.1 = k)) then
    m.map (fun p => if p.1 = k then (k, v) else p)
  else
    m ++ [(k, v)]

/-- `_analyze_pool_metrics` (lines 132-171): append one alert per satisfied
condition to `alert_history` and record the metrics in `monitored_pools`. -/
def analyze_pool_metrics (min_liquidity liquidity_drop_threshold
    liquidity_surge_threshold now : ℚ) (st : MonitorState)
    (m : PoolMetrics) : MonitorState :=
  { monitored_pools := poolsSet st.monitored_pools m.pool_address m,
    alert_history := st.alert_history ++
      analyze_alerts min_liquidity liquidity_drop_threshold
        liquidity_surge_threshold now m }

/-- Metrics that violate both the absolute floor and the drop threshold at
once. -/
def cexMetrics : PoolMetrics :=
  { pool_address := "P", token_address := "M", liquidity := 500,
    volume_24h := 0, price := 1, price_change_24h := 0,
    liquidity_change_24h := -15, volume_change_24h := 0, last_updated := 0 }

end PoolMonitor

namespace TxPipeline

/-- The dispatch loop only splits its input: the dispatched requests followed
by the remaining pending requests reassemble the sorted input list. -/
theorem dispatchLoop_append (m : Nat) :
    ∀ (l : List TransactionRequest)
      (proc : List (Option String × TransactionRequest)),
      (dispatchLoop m l proc).2.2 ++ (dispatchLoop m l proc).1 = l := by
  intro l
  induction l with
  | nil => intro proc; simp [dispatchLoop]
  | cons t rest ih =>
    intro proc
    by_cases h : proc.length < m
    · simp [dispatchLoop, h, ih]
    · simp [dispatchLoop, h]

/-- With a positive ceiling and an empty processing dict the loop always
dispatches the head request. -/
theorem dispatchLoop_cons (m : Nat) (hm : 0 < m) (t : TransactionRequest)
    (rest : List TransactionRequest) :
    dispatchLoop m (t :: rest) [] =
      ((dispatchLoop m rest (dictInsert [] t.signature t)).1,
       (dispatchLoop m rest (dictInsert [] t.signature t)).2.1,
       t :: (dispatchLoop m rest (dictInsert [] t.signature t)).2.2) := by
  simp [dispatchLoop, hm]

/-- Draining the queue round by round dispatches exactly the stable
descending sort of the submitted requests, in that order. -/
theorem drainOrder_eq_sortPending (m : Nat) (hm : 1 ≤ m) :
    ∀ (fuel : Nat) (pending : List TransactionRequest),
      pending.length ≤ fuel →
      drainOrder m fuel pending = sortPending pending := by
  intro fuel
  induction fuel with
  | zero =>
    intro pending h
    have hp : pending = [] := List.eq_nil_of_length_eq_zero (Nat.le_zero.mp h)
    subst hp
    simp [drainOrder, sortPending, List.insertionSort]
  | succ n ih =>
    intro pending h
    match pending with
    | [] => simp [drainOrder, sortPending, List.insertionSort]
    | p :: ps =>
      have hlen : (sortPending (p :: ps)).length = ps.length + 1 := by
        simp only [sortPending, List.length_insertionSort, List.length_cons]
      cases hsrt : sortPending (p :: ps) with
      | nil => rw [hsrt] at hlen; simp at hlen
      | cons q qs =>
        have hq := dispatchLoop_cons m hm q qs
        have happ := dispatchLoop_append m (q :: qs) []
        have hsub : (dispatchLoop m (q :: qs) []).1 <+ q :: qs := by
          conv_rhs => rw [← happ]
          exact List.sublist_append_right _ _
        have hsorted : List.Sorted priorityGE (q :: qs) := by
          rw [← hsrt]; exact List.sorted_insertionSort priorityGE (p :: ps)
        have hrest_sorted :
            List.Sorted priorityGE ((dispatchLoop m (q :: qs) []).1) :=
          hsorted.sublist hsub
        have hrest_len : ((dispatchLoop m (q :: qs) []).1).length ≤ n := by
          have h1 := congrArg List.length happ
          simp only [hq, List.length_append, List.length_cons] at h1
          rw [hsrt] at hlen
          simp only [List.length_cons] at hlen
          have h2 : ps.length ≤ n := by
            simpa using Nat.le_of_succ_le_succ h
          simp only [hq]
          omega
        have hih := ih ((dispatchLoop m (q :: qs) []).1) hrest_len
        have hfix : sortPending ((dispatchLoop m (q :: qs) []).1) =
            (dispatchLoop m (q :: qs) []).1 :=
          hrest_sorted.insertionSort_eq
        show (process_transactions m (p :: ps) []).2.2 ++
            drainOrder m n (process_transactions m (p :: ps) []).1 =
          q :: qs
        unfold process_transactions
        rw [hsrt, hih, hfix, happ]

/-- C1: the claim says at most `max_concurrent` requests can be in the
`Processing` state at any observation point.  The code violates this: the
processing dict is keyed by the request's `signature` field, which is `none`
for every not-yet-signed request, so all dispatched entries collapse onto the
single key `none`, the dict's size stays at `1`, and one call of
`_process_transactions` with `max_concurrent = 2` hands all three pending
requests to concurrently running execution tasks. -/
theorem C1_ceiling_exceeded :
    (process_transactions 2
      [freshRequest "T1" "main" 3, freshRequest "T2" "main" 3,
       freshRequest "T3" "main" 3] []).2.2 =
      [freshRequest "T1" "main" 3, freshRequest "T2" "main" 3,
       freshRequest "T3" "main" 3] ∧
    ((process_transactions 2
      [freshRequest "T1" "main" 3, freshRequest "T2" "main" 3,
       freshRequest "T3" "main" 3] []).2.1).length = 1 ∧
    2 < ((process_transactions 2
      [freshRequest "T1" "main" 3, freshRequest "T2" "main" 3,
       freshRequest "T3" "main" 3] []).2.2).length := by
  decide

/-- C2: over any drain of the admission queue, requests are popped for
dispatch in non-increasing priority order (`priorityGE`-sorted), the dispatch
stream is a permutation of the submitted requests, requests of equal priority
keep their arrival order, and the concrete scenario — priorities `[1, 5, 1]`
with `max_concurrent = 1` — starts the priority-5 request first and then the
two priority-1 requests in arrival order. -/
theorem C2_admission_order (m fuel : Nat) (reqs : List TransactionRequest)
    (hm : 1 ≤ m) (hfuel : reqs.length ≤ fuel) :
    List.Sorted priorityGE (drainOrder m fuel reqs) ∧
    drainOrder m fuel reqs ~ reqs ∧
    (∀ a b : TransactionRequest, [a, b] <+ reqs → a.priority = b.priority →
      [a, b] <+ drainOrder m fuel reqs) ∧
    drainOrder 1 3
        [freshRequest "T1" "main" 1, freshRequest "T2" "main" 5,
         freshRequest "T3" "main" 1] =
      [freshRequest "T2" "main" 5, freshRequest "T1" "main" 1,
       freshRequest "T3" "main" 1] := by
  rw [drainOrder_eq_sortPending m hm fuel reqs hfuel]
  refine ⟨List.sorted_insertionSort priorityGE reqs,
    List.perm_insertionSort priorityGE reqs, ?_, by decide⟩
  intro a b hab hpr
  exact List.pair_sublist_insertionSort (le_of_eq hpr.symm) hab

/-- Witness for `C2_admission_order` at the concrete `[1, 5, 1]` scenario. -/
theorem C2_admission_order_witness :
    1 ≤ 1 ∧
    ([freshRequest "T1" "main" 1, freshRequest "T2" "main" 5,
      freshRequest "T3" "main" 1] : List TransactionRequest).length ≤ 3 ∧
    drainOrder 1 3
        [freshRequest "T1" "main" 1, freshRequest "T2" "main" 5,
         freshRequest "T3" "main" 1] ~
      [freshRequest "T1" "main" 1, freshRequest "T2" "main" 5,
       freshRequest "T3" "main" 1] :=
  ⟨le_refl 1, by decide,
    (C2_admission_order 1 3
      [freshRequest "T1" "main" 1, freshRequest "T2" "main" 5,
       freshRequest "T3" "main" 1] (by decide) (by decide)).2.1⟩

/-- C3: `_execute_transaction` appends exactly one `TransactionResult` to the
completed ledger whatever the build/sign/send outcome — success records the
transaction hash with no error, failure records the error with no hash — and
it touches nothing else: the pending queue and the wallet table are unchanged
and every processing entry other than the one keyed by this request's (final)
signature survives.  The function is total in the outcome, which is the
embedded form of "a failure never aborts the dispatcher loop". -/
theorem C3_exactly_one_result (tx : TransactionRequest)
    (outcome : Except String String) (startTime now : ℚ) (st : PipelineState) :
    (∃ r : TransactionResult,
      (execute_transaction tx outcome startTime now st).completed_transactions =
        st.completed_transactions ++ [r] ∧
      (r.success = true ↔ ∃ h, outcome = Except.ok h) ∧
      (∀ h, outcome = Except.ok h →
        r.transaction_hash = some h ∧ r.error = none ∧
        r.request.status = "completed") ∧
      (∀ e, outcome = Except.error e →
        r.transaction_hash = none ∧ r.error = some e ∧
        r.request.status = "failed")) ∧
    (execute_transaction tx outcome startTime now st).pending_transactions =
      st.pending_transactions ∧
    (execute_transaction tx outcome startTime now st).wallets = st.wallets ∧
    (∀ p ∈ st.processing_transactions,
      p.1 ≠ (match outcome with
             | Except.ok h => some h
             | Except.error _ => tx.signature) →
      p ∈ (execute_transaction tx outcome startTime now st).processing_transactions) := by
  cases outcome with
  | ok h =>
    refine ⟨⟨_, rfl, by simp, ?_, by simp⟩, rfl, rfl, ?_⟩
    · intro h' hh'
      obtain rfl : h = h' := by simpa using hh'
      exact ⟨rfl, rfl, rfl⟩
    · intro p hp hne
      simpa [execute_transaction, dictRemove, List.mem_filter, hp] using hne
  | error e =>
    refine ⟨⟨_, rfl, by simp, by simp, ?_⟩, rfl, rfl, ?_⟩
    · intro e' he'
      obtain rfl : e = e' := by simpa using he'
      exact ⟨rfl, rfl, rfl⟩
    · intro p hp hne
      simpa [execute_transaction, dictRemove, List.mem_filter, hp] using hne

/-- C9 counterexample: submitting a request whose signature `"sigA"` is
already present in the pending queue is *not* a no-op: `submit_transaction`
performs no duplicate check, appends a second copy, and the queue now holds
two entries with the same identifier. -/
theorem C9_counterexample :
    submit_transaction dupState dupRequest =
      Except.ok (some "sigA",
        { dupState with pending_transactions := [dupRequest, dupRequest] }) ∧
    ([dupRequest, dupRequest] : List TransactionRequest).countP
        (fun r => decide (r.signature = some "sigA")) = 2 ∧
    ([dupRequest, dupRequest] : List TransactionRequest) ≠
      dupState.pending_transactions := by
  refine ⟨rfl, by decide, by decide⟩

/-- C9 amended: `submit_transaction` performs no duplicate check at all.  Any
request with a loaded wallet is appended to the pending queue, so the count
of queue entries carrying the submitted identifier always grows by one — a
resubmission duplicates the entry instead of being ignored. -/
theorem C9_duplicate_appended (st : PipelineState) (req : TransactionRequest)
    (hw : req.wallet_address ∈ st.wallets) :
    submit_transaction st req =
      Except.ok (req.signature,
        { st with pending_transactions := st.pending_transactions ++ [req] }) ∧
    (st.pending_transactions ++ [req]).countP
        (fun r => decide (r.signature = req.signature)) =
      st.pending_transactions.countP
        (fun r => decide (r.signature = req.signature)) + 1 := by
  refine ⟨by simp [submit_transaction, hw], ?_⟩
  simp [List.countP_append]

/-- Witness for `C9_duplicate_appended` on the state already holding
`dupRequest`. -/
theorem C9_duplicate_appended_witness :
    dupRequest.wallet_address ∈ dupState.wallets ∧
    (submit_transaction dupState dupRequest =
      Except.ok (dupRequest.signature,
        { dupState with pending_transactions :=
            dupState.pending_transactions ++ [dupRequest] }) ∧
    (dupState.pending_transactions ++ [dupRequest]).countP
        (fun r => decide (r.signature = dupRequest.signature)) =
      dupState.pending_transactions.countP
        (fun r => decide (r.signature = dupRequest.signature)) + 1) :=
  ⟨by decide, C9_duplicate_appended dupState dupRequest (by decide)⟩

/-- C10 counterexample: a freshly created (unsigned) request whose wallet is
not loaded is rejected with `ValueError` — nothing is appended and `none` is
not returned, so the claim does not hold for *every* fresh request. -/
theorem C10_counterexample :
    (freshRequest "mint" "ghost" 2).signature = none ∧
    submit_transaction emptyPipeline (freshRequest "mint" "ghost" 2) =
      Except.error "Invalid wallet address: ghost" ∧
    ¬ ∃ st' : PipelineState,
        submit_transaction emptyPipeline (freshRequest "mint" "ghost" 2) =
          Except.ok (none, st') := by
  refine ⟨rfl, rfl, ?_⟩
  rintro ⟨st', h⟩
  rw [show submit_transaction emptyPipeline (freshRequest "mint" "ghost" 2) =
        Except.error "Invalid wallet address: ghost" from rfl] at h
  exact Except.noConfusion h

/-- C10 amended: for every freshly created request (signature still at its
`none` default) whose wallet is loaded, `submit_transaction` appends the
request to the pending queue and returns the unchanged signature field, i.e.
`none`. -/
theorem C10_fresh_submit (st : PipelineState) (req : TransactionRequest)
    (hsig : req.signature = none) (hw : req.wallet_address ∈ st.wallets) :
    submit_transaction st req =
      Except.ok (none,
        { st with pending_transactions := st.pending_transactions ++ [req] }) := by
  simp [submit_transaction, hw, hsig]

/-- Witness for `C10_fresh_submit` on a fresh request with the loaded wallet
`"main"`. -/
theorem C10_fresh_submit_witness :
    (freshRequest "mint" "main" 2).signature = none ∧
    (freshRequest "mint" "main" 2).wallet_address ∈ emptyPipeline.wallets ∧
    submit_transaction emptyPipeline (freshRequest "mint" "main" 2) =
      Except.ok (none,
        { emptyPipeline with pending_transactions :=
            emptyPipeline.pending_transactions ++ [freshRequest "mint" "main" 2] }) :=
  ⟨rfl, by decide,
    C10_fresh_submit emptyPipeline (freshRequest "mint" "main" 2) rfl (by decide)⟩

end TxPipeline

namespace APIClientM

/-- Over a contiguous block of attempt indices ending at `max_retries - 1`,
the failing retry loop makes one attempt per index, sleeps the constant
`retry_delay` between consecutive attempts, and propagates the last error. -/
theorem attemptLoop_range' (max_retries : Nat) (d : ℚ) (errs : Nat → String) :
    ∀ (k a : Nat), a + k = max_retries → 1 ≤ k →
      attemptLoop max_retries d errs (List.range' a k) =
        (k, List.replicate (k - 1) d, some (errs (max_retries - 1))) := by
  intro k
  induction k with
  | zero => intro a _ h1; exact absurd h1 (by simp)
  | succ n ih =>
    intro a ha _
    by_cases hn : n = 0
    · subst hn
      have haa : ¬ a < max_retries - 1 := by omega
      have herr : a = max_retries - 1 := by omega
      simp [List.range', attemptLoop, haa, herr]
    · have h1n : 1 ≤ n := by omega
      have ha' : a + 1 + n = max_retries := by omega
      have hlt : a < max_retries - 1 := by omega
      have hrep : d :: List.replicate (n - 1) d = List.replicate n d := by
        conv_rhs => rw [show n = (n - 1) + 1 from by omega]
        rw [List.replicate_succ]
      simp [List.range', attemptLoop, hlt, ih (a + 1) ha' h1n, hrep]

/-- C4 counterexample: with `max_retries = 3` and a fixed `retry_delay = 2`,
the delays slept between the three failing attempts are `[2, 2]` — the delay
does not grow, and no backoff factor `q > 1` relates consecutive delays (the
configuration has no backoff factor at all). -/
theorem C4_counterexample :
    get_all_fail 3 2 (fun _ => "boom") = (3, [2, 2], some "boom") ∧
    ¬ (2 : ℚ) < 2 ∧
    ¬ ∃ q : ℚ, 1 < q ∧ (2 : ℚ) * q = 2 := by
  refine ⟨by decide, by norm_num, ?_⟩
  rintro ⟨q, hq1, hq2⟩
  have hq : q = 1 := by linarith
  rw [hq] at hq1
  exact lt_irrefl 1 hq1

/-- C4 amended: when every call fails and `max_retries ≥ 1`, `APIClient.get`
makes exactly `max_retries` attempts, sleeps the constant configured
`retry_delay` between consecutive attempts (no backoff multiplication), and
propagates the error of the last attempt to the caller. -/
theorem C4_retry_budget (n : Nat) (d : ℚ) (errs : Nat → String) (hn : 1 ≤ n) :
    get_all_fail n d errs = (n, List.replicate (n - 1) d, some (errs (n - 1))) := by
  unfold get_all_fail
  rw [List.range_eq_range']
  exact attemptLoop_range' n d errs n 0 (by omega) hn

/-- Witness for `C4_retry_budget`: three attempts, constant delays, and the
*last* attempt's error surfaced. -/
theorem C4_retry_budget_witness :
    1 ≤ 3 ∧
    get_all_fail 3 2 (fun i => if i = 2 then "last" else "early") =
      (3, List.replicate 2 (2 : ℚ), some "last") :=
  ⟨by decide, C4_retry_budget 3 2 (fun i => if i = 2 then "last" else "early") (by decide)⟩

end APIClientM

namespace BackendPipeline

/-- `minByTimestamp` returns an element of the list. -/
theorem minByTimestamp_mem :
    ∀ {l : List (String × Transaction)} {p : String × Transaction},
      minByTimestamp l = some p → p ∈ l := by
  intro l
  induction l with
  | nil => intro p h; simp [minByTimestamp] at h
  | cons x t ih =>
    intro p h
    cases ht : minByTimestamp t with
    | none =>
      simp only [minByTimestamp, ht, Option.some.injEq] at h
      exact h ▸ List.mem_cons_self x t
    | some q =>
      simp only [minByTimestamp, ht] at h
      by_cases hq : q.2.timestamp < x.2.timestamp
      · rw [if_pos hq] at h
        simp only [Option.some.injEq] at h
        exact h ▸ List.mem_cons_of_mem x (ih ht)
      · rw [if_neg hq] at h
        simp only [Option.some.injEq] at h
        exact h ▸ List.mem_cons_self x t

/-- `minByTimestamp` returns a timestamp-minimal element. -/
theorem minByTimestamp_le :
    ∀ {l : List (String × Transaction)} {p : String × Transaction},
      minByTimestamp l = some p →
      ∀ q ∈ l, p.2.timestamp ≤ q.2.timestamp := by
  intro l
  induction l with
  | nil => intro p h; simp [minByTimestamp] at h
  | cons x t ih =>
    intro p h q hq
    cases ht : minByTimestamp t with
    | none =>
      have ht' : t = [] := by
        cases t with
        | nil => rfl
        | cons y s =>
          cases hs : minByTimestamp s with
          | none => simp [minByTimestamp, hs] at ht
          | some m =>
            simp only [minByTimestamp, hs] at ht
            by_cases hm : m.2.timestamp < y.2.timestamp
            · rw [if_pos hm] at ht; simp at ht
            · rw [if_neg hm] at ht; simp at ht
      simp only [minByTimestamp, ht, Option.some.injEq] at h
      subst ht'
      rcases List.mem_cons.mp hq with rfl | hq'
      · exact le_of_eq (by rw [h])
      · simp at hq'
    | some m =>
      simp only [minByTimestamp, ht] at h
      by_cases hm : m.2.timestamp < x.2.timestamp
      · rw [if_pos hm] at h
        simp only [Option.some.injEq] at h
        subst h
        rcases List.mem_cons.mp hq with rfl | hq'
        · exact le_of_lt hm
        · exact ih ht q hq'
      · rw [if_neg hm] at h
        simp only [Option.some.injEq] at h
        subst h
        rcases List.mem_cons.mp hq with rfl | hq'
        · exact le_refl _
        · exact le_trans (not_lt.mp hm) (ih ht q hq')

/-- `minByTimestamp` succeeds on a non-empty list. -/
theorem minByTimestamp_isSome :
    ∀ {l : List (String × Transaction)}, l ≠ [] →
      ∃ p, minByTimestamp l = some p := by
  intro l hl
  cases l with
  | nil => exact absurd rfl hl
  | cons x t =>
    cases ht : minByTimestamp t with
    | none => exact ⟨x, by simp [minByTimestamp, ht]⟩
    | some q =>
      by_cases hq : q.2.timestamp < x.2.timestamp
      · exact ⟨q, by simp [minByTimestamp, ht, hq]⟩
      · exact ⟨x, by simp [minByTimestamp, ht, hq]⟩

/-- Deleting one present key from a dict with distinct keys removes exactly
one entry. -/
theorem filter_ne_key_length :
    ∀ {l : List (String × Transaction)} {p : String × Transaction},
      (l.map Prod.fst).Nodup → p ∈ l →
      (l.filter (fun q => decide (q.1 ≠ p.1))).length + 1 = l.length := by
  intro l
  induction l with
  | nil => intro p _ hp; simp at hp
  | cons x t ih =>
    intro p hnd hp
    simp only [List.map_cons, List.nodup_cons] at hnd
    obtain ⟨hx, hnd'⟩ := hnd
    rcases List.mem_cons.mp hp with rfl | hp'
    · have hkeep : t.filter (fun q => decide (q.1 ≠ p.1)) = t := by
        apply List.filter_eq_self.mpr
        intro q hq
        simp only [decide_eq_true_eq]
        intro hqp
        exact hx (hqp ▸ List.mem_map_of_mem Prod.fst hq)
      rw [List.filter_cons_of_neg (by simp), hkeep, List.length_cons]
    · have hxp : x.1 ≠ p.1 := fun he => hx (he ▸ List.mem_map_of_mem Prod.fst hp')
      have hrec := ih hnd' hp'
      rw [List.filter_cons_of_pos (by simp [hxp]), List.length_cons, List.length_cons]
      omega

/-- `cacheSet` grows the cache by at most one entry. -/
theorem cacheSet_length_le (m : List (String × Transaction)) (k : String)
    (v : Transaction) : (cacheSet m k v).length ≤ m.length + 1 := by
  by_cases h : m.any (fun p => decide (p.1 = k))
  · simp [cacheSet, h]
  · simp [cacheSet, h]

/-- Setting a key that is absent from the cache appends the new entry. -/
theorem cacheSet_of_not_mem (m : List (String × Transaction)) (k : String)
    (v : Transaction) (h : ∀ p ∈ m, p.1 ≠ k) :
    cacheSet m k v = m ++ [(k, v)] := by
  have hany : m.any (fun p => decide (p.1 = k)) = false := by
    simp only [List.any_eq_false, decide_eq_true_eq]
    exact h
  simp [cacheSet, hany]

end BackendPipeline

namespace BackendPipeline

/-- C5: the bounded transaction cache.  (1) An `_add_to_cache` call never
grows the cache beyond `max_cache_size`.  (2) When the cache already holds
exactly `C` entries and the incoming hash is new, the call evicts exactly the
entry with the smallest stored timestamp (the first such entry in insertion
order), keeps every other entry, appends the new one, and ends at exactly `C`
entries.  The `Nodup` hypothesis is the association-list rendering of a
Python dict's unique keys. -/
theorem C5_bounded_cache (C : Nat) (cache : List (String × Transaction))
    (tx : Transaction) (hnd : (cache.map Prod.fst).Nodup) (hC : 1 ≤ C) :
    (cache.length ≤ C → (add_to_cache C cache tx).length ≤ C) ∧
    (cache.length = C → (∀ p ∈ cache, p.1 ≠ tx.hash) →
      ∃ oldest ∈ cache,
        (∀ q ∈ cache, oldest.2.timestamp ≤ q.2.timestamp) ∧
        add_to_cache C cache tx =
          cache.filter (fun q => decide (q.1 ≠ oldest.1)) ++ [(tx.hash, tx)] ∧
        (add_to_cache C cache tx).length = C ∧
        oldest ∉ add_to_cache C cache tx ∧
        (∀ q ∈ cache, q.1 ≠ oldest.1 → q ∈ add_to_cache C cache tx)) := by
  constructor
  · intro hle
    by_cases hfull : C ≤ cache.length
    · have hceq : cache.length = C := le_antisymm hle hfull
      have hne : cache ≠ [] := by
        intro h
        rw [h] at hceq
        simp at hceq
        omega
      obtain ⟨old, hold⟩ := minByTimestamp_isSome hne
      have hmem := minByTimestamp_mem hold
      have hflen := filter_ne_key_length hnd hmem
      have hdef : add_to_cache C cache tx =
          cacheSet (cache.filter (fun p => decide (p.1 ≠ old.1))) tx.hash tx := by
        simp only [add_to_cache]
        rw [if_pos hfull, hold]
      rw [hdef]
      have := cacheSet_length_le
        (cache.filter (fun p => decide (p.1 ≠ old.1))) tx.hash tx
      omega
    · have hdef : add_to_cache C cache tx = cacheSet cache tx.hash tx := by
        simp only [add_to_cache]
        rw [if_neg hfull]
      rw [hdef]
      have := cacheSet_length_le cache tx.hash tx
      omega
  · intro hceq hnew
    have hfull : C ≤ cache.length := le_of_eq hceq.symm
    have hne : cache ≠ [] := by
      intro h
      rw [h] at hceq
      simp at hceq
      omega
    obtain ⟨old, hold⟩ := minByTimestamp_isSome hne
    have hmem := minByTimestamp_mem hold
    have hmin := minByTimestamp_le hold
    have hflen := filter_ne_key_length hnd hmem
    have happend :
        cacheSet (cache.filter (fun p => decide (p.1 ≠ old.1))) tx.hash tx =
          cache.filter (fun p => decide (p.1 ≠ old.1)) ++ [(tx.hash, tx)] := by
      apply cacheSet_of_not_mem
      intro p hp
      exact hnew p (List.mem_of_mem_filter hp)
    have hdef : add_to_cache C cache tx =
        cache.filter (fun p => decide (p.1 ≠ old.1)) ++ [(tx.hash, tx)] := by
      simp only [add_to_cache]
      rw [if_pos hfull, hold]
      exact happend
    refine ⟨old, hmem, hmin, hdef, ?_, ?_, ?_⟩
    · rw [hdef, List.length_append, List.length_cons, List.length_nil]
      omega
    · rw [hdef]
      intro hin
      rcases List.mem_append.mp hin with hin1 | hin2
      · have := List.of_mem_filter hin1
        simp at this
      · have heq : old = (tx.hash, tx) := by simpa using hin2
        exact hnew old hmem (by rw [heq])
    · intro q hq hqo
      rw [hdef]
      exact List.mem_append_left _ (List.mem_filter.mpr ⟨hq, by simp [hqo]⟩)

/-- Witness for `C5_bounded_cache`, realising the spec scenario: capacity 2,
entries `A` (t = 0) and `B` (t = 1), inserting `C` (t = 2) evicts exactly
`A`. -/
theorem C5_bounded_cache_witness :
    (([("A", mkTx "A" 0), ("B", mkTx "B" 1)] :
        List (String × Transaction)).map Prod.fst).Nodup ∧
    1 ≤ 2 ∧
    add_to_cache 2 [("A", mkTx "A" 0), ("B", mkTx "B" 1)] (mkTx "C" 2) =
      [("B", mkTx "B" 1), ("C", mkTx "C" 2)] ∧
    (([("A", mkTx "A" 0), ("B", mkTx "B" 1)] :
        List (String × Transaction)).length ≤ 2 →
      (add_to_cache 2 [("A", mkTx "A" 0), ("B", mkTx "B" 1)]
        (mkTx "C" 2)).length ≤ 2) :=
  ⟨by decide, by decide, by decide,
    (C5_bounded_cache 2 [("A", mkTx "A" 0), ("B", mkTx "B" 1)] (mkTx "C" 2)
      (by decide) (by decide)).1⟩

/-- C8 counterexample: `_validate_transaction_data` never checks the hash
format, so a malformed hash such as `"x"` can be cached; once its TTL has
elapsed, `get_transaction` on that key does not return absent — it raises the
validation error instead. -/
theorem C8_counterexample :
    cacheGet [("x", mkTx "x" 0)] "x" = some (mkTx "x" 0) ∧
    validate_transaction_hash "x" = false ∧
    ((3600 : ℚ) < 7200 - (mkTx "x" 0).timestamp) ∧
    get_transaction 3600 [("x", mkTx "x" 0)] "x" 7200 =
      Except.error "Invalid transaction hash" ∧
    get_transaction 3600 [("x", mkTx "x" 0)] "x" 7200 ≠
      Except.ok (none, [("x", mkTx "x" 0)]) := by
  refine ⟨rfl, by decide, by norm_num [mkTx], rfl, ?_⟩
  intro h
  rw [show get_transaction 3600 [("x", mkTx "x" 0)] "x" 7200 =
      Except.error "Invalid transaction hash" from rfl] at h
  exact Except.noConfusion h

/-- C8 amended: for every cached entry stored under a well-formed
(88-character base58) hash whose TTL has elapsed, `get_transaction` returns
absent and passes the cache through unchanged — the expired entry is not
removed by the read. -/
theorem C8_expired_get (cache_ttl now : ℚ)
    (cache : List (String × Transaction)) (transaction_hash : String)
    (tx : Transaction)
    (hvalid : validate_transaction_hash transaction_hash = true)
    (hmem : cacheGet cache transaction_hash = some tx)
    (hexp : cache_ttl < now - tx.timestamp) :
    get_transaction cache_ttl cache transaction_hash now =
      Except.ok (none, cache) := by
  have hinv : is_cache_valid cache_ttl now tx = false := by
    simp only [is_cache_valid, decide_eq_false_iff_not, not_le]
    linarith
  simp [get_transaction, hvalid, hmem, hinv]

/-- Witness for `C8_expired_get`: a well-formed hash cached at t = 0 with
TTL 3600, read at t = 7200. -/
theorem C8_expired_get_witness :
    validate_transaction_hash hash88 = true ∧
    cacheGet [(hash88, mkTx hash88 0)] hash88 = some (mkTx hash88 0) ∧
    ((3600 : ℚ) < 7200 - (mkTx hash88 0).timestamp) ∧
    get_transaction 3600 [(hash88, mkTx hash88 0)] hash88 7200 =
      Except.ok (none, [(hash88, mkTx hash88 0)]) :=
  ⟨by decide, rfl, by norm_num [mkTx],
    C8_expired_get 3600 7200 [(hash88, mkTx hash88 0)] hash88 (mkTx hash88 0)
      (by decide) rfl (by norm_num [mkTx])⟩

end BackendPipeline

namespace BackendMonitor

/-- Single-step behaviour of the cooldown gate: an alert can fire only when
the cooldown has elapsed, firing refreshes `last_alert_time` to `now`, and a
non-firing check leaves the token data unchanged. -/
theorem check_alerts_gate (cooldown decThr : ℚ) (tok : String)
    (now liq : ℚ) (d : TokenData) :
    ((check_alerts cooldown decThr tok now liq d).1.isSome →
      cooldown ≤ now - d.last_alert_time ∧
      (check_alerts cooldown decThr tok now liq d).2.last_alert_time = now) ∧
    ((check_alerts cooldown decThr tok now liq d).1 = none →
      (check_alerts cooldown decThr tok now liq d).2 = d) := by
  simp only [check_alerts]
  split_ifs with h1 h2 h3 h4 <;> simp_all

/-- Fired-alert times over a trace: every fired time respects the cooldown
relative to the incoming `last_alert_time`, and any two fired times are at
least one cooldown apart. -/
theorem run_checks_spec (cooldown decThr : ℚ) (tok : String)
    (hc : 0 ≤ cooldown) :
    ∀ (inputs : List (ℚ × ℚ)) (d : TokenData),
      (∀ t ∈ run_checks cooldown decThr tok inputs d,
        d.last_alert_time + cooldown ≤ t) ∧
      (run_checks cooldown decThr tok inputs d).Pairwise
        (fun t t' => t + cooldown ≤ t') := by
  intro inputs
  induction inputs with
  | nil => intro d; simp [run_checks]
  | cons x rest ih =>
    intro d
    obtain ⟨now, liq⟩ := x
    cases hr : (check_alerts cooldown decThr tok now liq d).1 with
    | none =>
      have hd : (check_alerts cooldown decThr tok now liq d).2 = d :=
        (check_alerts_gate cooldown decThr tok now liq d).2 hr
      have hrun : run_checks cooldown decThr tok ((now, liq) :: rest) d =
          run_checks cooldown decThr tok rest d := by
        simp [run_checks, hr, hd]
      rw [hrun]
      exact ih d
    | some a =>
      obtain ⟨hgate, hlast⟩ :=
        (check_alerts_gate cooldown decThr tok now liq d).1 (by simp [hr])
      have hrun : run_checks cooldown decThr tok ((now, liq) :: rest) d =
          now :: run_checks cooldown decThr tok rest
            (check_alerts cooldown decThr tok now liq d).2 := by
        simp [run_checks, hr]
      rw [hrun]
      obtain ⟨ihA, ihB⟩ := ih (check_alerts cooldown decThr tok now liq d).2
      constructor
      · intro t ht
        rcases List.mem_cons.mp ht with rfl | ht'
        · linarith
        · have h2 := ihA t ht'
          rw [hlast] at h2
          linarith
      · apply List.Pairwise.cons
        · intro t' ht'
          have h2 := ihA t' ht'
          rw [hlast] at h2
          exact h2
        · exact ihB

/-- C6: for every monitored token, an alert may fire only when
`now - last_alert_time ≥ alert_cooldown`, firing refreshes the timestamp to
`now`, and consequently over any sequence of checks — whatever threshold
conditions hold — any two fired alert times are at least one cooldown apart:
at most one alert per cooldown window. -/
theorem C6_alert_cooldown (cooldown decThr : ℚ) (tok : String)
    (inputs : List (ℚ × ℚ)) (d : TokenData) (hc : 0 ≤ cooldown) :
    (∀ (now liq : ℚ) (d' : TokenData),
      (check_alerts cooldown decThr tok now liq d').1.isSome →
        cooldown ≤ now - d'.last_alert_time ∧
        (check_alerts cooldown decThr tok now liq d').2.last_alert_time = now) ∧
    (run_checks cooldown decThr tok inputs d).Pairwise
      (fun t t' => t + cooldown ≤ t') := by
  refine ⟨?_, (run_checks_spec cooldown decThr tok hc inputs d).2⟩
  intro now liq d'
  exact (check_alerts_gate cooldown decThr tok now liq d').1

/-- Witness for `C6_alert_cooldown`: cooldown 300, three low-liquidity
observations at t = 0, 100, 400 — alerts fire at 0 and 400 only, 400 s
apart. -/
theorem C6_alert_cooldown_witness :
    (0 : ℚ) ≤ 300 ∧
    run_checks 300 10 "tok" [(0, 10), (100, 10), (400, 10)]
        { threshold := 1000, last_liquidity := 0,
          last_alert_time := -100000, liquidity_history := [] } = [0, 400] ∧
    (run_checks 300 10 "tok" [(0, 10), (100, 10), (400, 10)]
        { threshold := 1000, last_liquidity := 0,
          last_alert_time := -100000, liquidity_history := [] }).Pairwise
      (fun t t' => t + 300 ≤ t') :=
  ⟨by norm_num, by norm_num [run_checks, check_alerts],
    (C6_alert_cooldown 300 10 "tok" [(0, 10), (100, 10), (400, 10)]
      { threshold := 1000, last_liquidity := 0,
        last_alert_time := -100000, liquidity_history := [] }
      (by norm_num)).2⟩

end BackendMonitor

namespace PoolMonitor

/-- C7 counterexample: with `min_liquidity = 1000`,
`liquidity_drop_threshold = 10`, `liquidity_surge_threshold = 20`, a pool at
liquidity 500 with a 24h change of −15 % satisfies both the floor and the
drop condition, and `_analyze_pool_metrics` emits *two* alerts in one check —
not at most one. -/
theorem C7_counterexample :
    ((analyze_alerts 1000 10 20 0 cexMetrics).map (fun a => a.alert_type)) =
      ["low_liquidity", "liquidity_drop"] ∧
    (analyze_alerts 1000 10 20 0 cexMetrics).length = 2 ∧
    ¬ (analyze_alerts 1000 10 20 0 cexMetrics).length ≤ 1 := by
  refine ⟨?_, ?_, ?_⟩ <;> norm_num [analyze_alerts, cexMetrics]

/-- C7 amended: on a single check the three threshold conditions are tested
*independently*: each satisfied condition emits exactly one alert, the
emitted alert types appear in the fixed source order floor–drop–surge (a
sublist of the three type names), and the number of alerts equals the number
of satisfied conditions — up to two can fire simultaneously (floor together
with drop or surge), with no at-most-one precedence. -/
theorem C7_independent_alerts (min_liquidity liquidity_drop_threshold
    liquidity_surge_threshold now : ℚ) (m : PoolMetrics) :
    ((analyze_alerts min_liquidity liquidity_drop_threshold
        liquidity_surge_threshold now m).map (fun a => a.alert_type)) <+
      ["low_liquidity", "liquidity_drop", "liquidity_surge"] ∧
    ("low_liquidity" ∈ (analyze_alerts min_liquidity liquidity_drop_threshold
        liquidity_surge_threshold now m).map (fun a => a.alert_type) ↔
      m.liquidity < min_liquidity) ∧
    ("liquidity_drop" ∈ (analyze_alerts min_liquidity liquidity_drop_threshold
        liquidity_surge_threshold now m).map (fun a => a.alert_type) ↔
      m.liquidity_change_24h < -liquidity_drop_threshold) ∧
    ("liquidity_surge" ∈ (analyze_alerts min_liquidity liquidity_drop_threshold
        liquidity_surge_threshold now m).map (fun a => a.alert_type) ↔
      liquidity_surge_threshold < m.liquidity_change_24h) ∧
    (analyze_alerts min_liquidity liquidity_drop_threshold
        liquidity_surge_threshold now m).length =
      (if m.liquidity < min_liquidity then 1 else 0) +
      (if m.liquidity_change_24h < -liquidity_drop_threshold then 1 else 0) +
      (if liquidity_surge_threshold < m.liquidity_change_24h then 1 else 0) := by
  unfold analyze_alerts
  split_ifs <;>
    refine ⟨?_, ?_, ?_, ?_, by simp⟩ <;>
    simp only [List.map_append, List.map_cons, List.map_nil, List.append_nil,
      List.nil_append] <;>
    first
      | decide
      | simp_all

end PoolMonitor
